import Mathlib

/-!
Shallow embedding of the keyword-classifier core of `src/pages/1_app.py`.

The program classifies free-text records against keyword dictionaries:
`classify(text, dictionaries)` lowercases `str(text)` and, for each
category, tests whether any phrase of the category occurs in the text
bounded by regex word boundaries (the pattern is
`re.search(r"\b" + re.escape(p) + r"\b", text)`).  `parse_dictionaries`
parses user JSON into a mapping category name -> set of lowercased
phrase strings, aborting the run on any exception.

Modelling conventions:
* Python strings are `String` / `List Char`; `str.lower()` is modelled
  by ASCII lowercasing (all phrases and texts in the spec are ASCII).
* The regex word class `\w` is modelled by its ASCII part
  (letters, digits, underscore), matching the texts in scope.
* `re.escape` makes every phrase character literal, so phrase matching
  is modelled directly as literal character-sequence occurrence with a
  word-boundary test at both ends; a regex engine is not modelled.
* Python `dict` is an association list with unique keys in insertion
  order; a Python `set` is a duplicate-free list.
* Numbers appearing in dictionaries or records are modelled as integers.
-/

namespace KeywordClassifier

/-- ASCII word character, the ASCII part of the regex class `\w`:
letters, digits and underscore. -/
def isWordChar (c : Char) : Bool :=
  (('a' ≤ c && c ≤ 'z') || ('A' ≤ c && c ≤ 'Z') ||
   ('0' ≤ c && c ≤ '9') || c == '_')

/-- ASCII lowercasing of one character, as Python `str.lower()` acts on
ASCII input: `A`..`Z` (code points 65 to 90) map 32 code points up,
everything else is kept. -/
def pyLowerChar (c : Char) : Char :=
  if 65 ≤ c.toNat && c.toNat ≤ 90 then Char.ofNat (c.toNat + 32) else c

/-- Python `str.lower()` on ASCII input: lowercase every character. -/
def pyLower (s : String) : String :=
  String.mk (s.data.map pyLowerChar)

/-- Whether position `i` of the text holds a word character
(out-of-range positions count as non-word, as at the ends of a string
for regex `\b`). -/
def wordAt (t : List Char) (i : Nat) : Bool :=
  match t.get? i with
  | some c => isWordChar c
  | none => false

/-- Regex word boundary `\b` at position `k` of the text (`0 ≤ k ≤
length`): the word-ness of the character before `k` differs from the
word-ness of the character at `k`. -/
def boundaryAt (t : List Char) (k : Nat) : Bool :=
  (decide (k ≠ 0) && wordAt t (k - 1)) != wordAt t k

/-- The phrase `p` occurs literally at position `i` of the text `t`,
with a word boundary at both ends: exactly the condition under which
Python `re.search` finds the pattern `\b re.escape(p) \b` at `i`. -/
def matchAt (p t : List Char) (i : Nat) : Bool :=
  ((t.drop i).take p.length == p) && boundaryAt t i &&
    boundaryAt t (i + p.length)

/-- Python `re.search(r"\b" + re.escape(p) + r"\b", t)` succeeds: the
boundary-delimited literal occurrence exists at some position. -/
def phraseFound (p t : List Char) : Bool :=
  (List.range (t.length + 1)).any fun i => matchAt p t i

/-- One input record: the value taken from the chosen column of the
uploaded table.  It may be a string, a number, or missing (pandas NaN);
`classify` coerces it with `str(...)`. -/
inductive Record where
  | str (s : String)
  | int (n : Int)
  | nan
  deriving Repr, DecidableEq

/-- Python `str(record)`: identity on strings, decimal rendering of
numbers, and the text `nan` for a missing (pandas NaN) value. -/
def recordStr : Record → String
  | .str s => s
  | .int n => toString n
  | .nan => "nan"

/-- The dictionaries argument of `classify`: Python dict mapping
category name to a set of phrases, as an association list. -/
abbrev Dictionaries : Type := List (String × List String)

/-- The function `classify` of `src/pages/1_app.py` (lines 32-38):
coerce the record to a string, lowercase it, and for each category
report whether any of its phrases is found in the text bounded by word
boundaries.  Returns one `(category, flag)` pair per category, in
dictionary order. -/
def classify (text : Record) (dictionaries : Dictionaries) :
    List (String × Bool) :=
  let t := (pyLower (recordStr text)).data
  dictionaries.map fun cp => (cp.1, cp.2.any fun p => phraseFound p.data t)

/-- The classification loop of `src/pages/1_app.py` (lines 117-123):
one flag set per record, in input order. -/
def matchBatch (dictionaries : Dictionaries) (records : List Record) :
    List (List (String × Bool)) :=
  records.map fun r => classify r dictionaries

/-- A JSON value as produced by `json.loads` (numbers restricted to
integers; none of the dictionary inputs in scope uses fractions). -/
inductive Json where
  | str (s : String)
  | int (n : Int)
  | bool (b : Bool)
  | null
  | arr (xs : List Json)
  | obj (kvs : List (String × Json))

mutual

/-- Python `repr` of a `json.loads` value, used by `str` on the
elements of containers (string-escape subtleties inside `repr` of a
string are not exercised by any dictionary in scope). -/
def jsonRepr : Json → String
  | .str s => "'" ++ s ++ "'"
  | .int n => toString n
  | .bool b => if b then "True" else "False"
  | .null => "None"
  | .arr xs => "[" ++ jsonReprList xs ++ "]"
  | .obj kvs => "\x7b" ++ jsonReprObj kvs ++ "\x7d"

/-- Comma-separated `repr`s of the elements of a Python list. -/
def jsonReprList : List Json → String
  | [] => ""
  | [x] => jsonRepr x
  | x :: y :: xs => jsonRepr x ++ ", " ++ jsonReprList (y :: xs)

/-- Comma-separated `repr`s of the entries of a Python dict. -/
def jsonReprObj : List (String × Json) → String
  | [] => ""
  | [kv] => "'" ++ kv.1 ++ "': " ++ jsonRepr kv.2
  | kv :: kw :: kvs => "'" ++ kv.1 ++ "': " ++ jsonRepr kv.2 ++ ", " ++
      jsonReprObj (kw :: kvs)

end

/-- Python `str(x)` on a `json.loads` value: identity on strings,
`repr`-based rendering otherwise. -/
def jsonStr : Json → String
  | .str s => s
  | v => jsonRepr v

/-- Python iteration over a `json.loads` value: a list yields its
elements, a string yields its characters as one-character strings, a
dict yields its keys; numbers, booleans and `None` are not iterable
(iterating them raises `TypeError`). -/
def pyIter : Json → Option (List Json)
  | .arr xs => some xs
  | .str s => some (s.data.map fun c => .str (String.mk [c]))
  | .obj kvs => some (kvs.map fun kv => .str kv.1)
  | _ => none

/-- Python set construction from a list, keeping the first occurrence
of each element (the choice of representative and order are irrelevant
to every property proved below; only membership and freedom from
duplicates matter). -/
def pySet (xs : List String) : List String :=
  xs.foldl (fun acc s => if s ∈ acc then acc else acc ++ [s]) []

/-- The set comprehension of `parse_dictionaries` applied to the
entries of the parsed object, with Python left-to-right evaluation:
the first non-iterable category value raises, which the surrounding
`try` turns into an error for the whole call. -/
def parseEntries : List (String × Json) →
    Except String (List (String × List String))
  | [] => .ok []
  | (k, v) :: rest =>
    match pyIter v with
    | none => .error "Invalid JSON: category value is not iterable"
    | some xs =>
      match parseEntries rest with
      | .error e => .error e
      | .ok tail => .ok ((k, pySet (xs.map fun x => pyLower (jsonStr x))) :: tail)

/-- The function `parse_dictionaries` of `src/pages/1_app.py` (lines
90-96).  Its input is the user text after `json.loads`: `none` stands
for text that is not parseable as JSON (where `json.loads` itself
raises).  A parsed value without the `.items()` method (anything but an
object) raises `AttributeError`; both failures are caught by the
`except` branch, which reports the error and stops the run. -/
def parse_dictionaries (j : Option Json) :
    Except String (List (String × List String)) :=
  match j with
  | none => .error "Invalid JSON: not parseable as JSON text"
  | some (.obj kvs) => parseEntries kvs
  | some _ => .error "Invalid JSON: top-level value has no items method"

/-- Whether the input would be accepted by `parse_dictionaries`:
parseable JSON text whose top level is an object and whose every
category value is iterable (a list, a string or an object). -/
def isParseableShape (j : Option Json) : Bool :=
  match j with
  | some (.obj kvs) => kvs.all fun kv => (pyIter kv.2).isSome
  | _ => false

/-- The run of `src/pages/1_app.py` lines 98-123 on one uploaded
column: parse the dictionary text, and only when that succeeds classify
every record; a parse failure stops the run (`st.stop()`) before any
matching, so no flag set is produced. -/
def runApp (j : Option Json) (records : List Record) :
    Except String (List (List (String × Bool))) :=
  match parse_dictionaries j with
  | .error e => .error e
  | .ok d => .ok (matchBatch d records)

/-- Follows the spec's words, for comparison with the code's
`matchAt`: the phrase occurs at `i` and its first and last characters
are not adjacent to word characters in the surrounding text. -/
def specMatchAt (p t : List Char) (i : Nat) : Bool :=
  ((t.drop i).take p.length == p) &&
    (decide (i = 0) || !wordAt t (i - 1)) && !wordAt t (i + p.length)

/-- Follows the spec's words: some position carries a whole-word match
in the sense of the spec's glossary. -/
def specWholeWordFound (p t : List Char) : Bool :=
  (List.range (t.length + 1)).any fun i => specMatchAt p t i

/-- Test dictionary with the single phrase `vip`. -/
def Dvip : Dictionaries := [("exclusive_marketing", ["vip"])]

/-- The normalized dictionary of the end-to-end scenario. -/
def Dmain : Dictionaries :=
  [("urgency_marketing", ["limited time", "hurry"]),
   ("exclusive_marketing", ["vip", "exclusive"])]

/-- Test dictionary with the single phrase `limited time`. -/
def Durgency : Dictionaries := [("urgency_marketing", ["limited time"])]

/-- Test dictionary with the single phrase `50% off`. -/
def Dpromo : Dictionaries := [("promo", ["50% off"])]

theorem classify_map_fst (d : Dictionaries) (r : Record) :
    (classify r d).map Prod.fst = d.map Prod.fst := by
  simp [classify, List.map_map, Function.comp_def]

theorem classify_getElem (d : Dictionaries) (r : Record) (i : Nat)
    (cat : String) (ps : List String) (h : d[i]? = some (cat, ps)) :
    (classify r d)[i]? =
      some (cat, ps.any fun p =>
        phraseFound p.data (pyLower (recordStr r)).data) := by
  simp [classify, List.getElem?_map, h]

theorem toNat_pyLowerChar (c : Char) :
    (pyLowerChar c).toNat =
      if 65 ≤ c.toNat && c.toNat ≤ 90 then c.toNat + 32 else c.toNat := by
  unfold pyLowerChar
  split
  case isTrue h =>
    simp only [Bool.and_eq_true, decide_eq_true_eq] at h
    have hv : Nat.isValidChar (c.toNat + 32) := Or.inl (by omega)
    rw [Char.ofNat, dif_pos hv]
    rfl
  case isFalse h => rfl

theorem pyLowerChar_idem (c : Char) :
    pyLowerChar (pyLowerChar c) = pyLowerChar c := by
  have h := toNat_pyLowerChar c
  rw [pyLowerChar]
  split
  case isTrue hc =>
    exfalso
    split at h <;>
      simp only [Bool.and_eq_true, decide_eq_true_eq] at * <;> omega
  case isFalse hc => rfl

theorem pyLower_idem (s : String) : pyLower (pyLower s) = pyLower s := by
  unfold pyLower
  refine congrArg String.mk ?_
  show (s.data.map pyLowerChar).map pyLowerChar = s.data.map pyLowerChar
  rw [List.map_map]
  exact List.map_congr_left fun a _ => pyLowerChar_idem a

theorem pySet_foldl_nodup (xs : List String) (acc : List String)
    (h : acc.Nodup) :
    (xs.foldl (fun acc s => if s ∈ acc then acc else acc ++ [s]) acc).Nodup := by
  induction xs generalizing acc with
  | nil => exact h
  | cons x xs ih =>
    rw [List.foldl_cons]
    split
    case isTrue => exact ih _ h
    case isFalse hx =>
      refine ih _ ?_
      rw [List.nodup_append]
      refine ⟨h, List.nodup_singleton x, ?_⟩
      intro a ha hb
      rw [List.mem_singleton] at hb
      subst hb
      exact hx ha

theorem pySet_foldl_mem (xs : List String) (acc : List String) (y : String)
    (h : y ∈ xs.foldl (fun acc s => if s ∈ acc then acc else acc ++ [s]) acc) :
    y ∈ acc ∨ y ∈ xs := by
  induction xs generalizing acc with
  | nil => exact Or.inl h
  | cons x xs ih =>
    rw [List.foldl_cons] at h
    rcases ih _ h with hy | hy
    · split at hy
      · exact Or.inl hy
      · rw [List.mem_append, List.mem_singleton] at hy
        rcases hy with hy | hy
        · exact Or.inl hy
        · exact Or.inr (by simp [hy])
    · exact Or.inr (List.mem_cons_of_mem x hy)

theorem pySet_nodup (xs : List String) : (pySet xs).Nodup :=
  pySet_foldl_nodup xs [] List.nodup_nil

theorem pySet_subset (xs : List String) (y : String) (h : y ∈ pySet xs) :
    y ∈ xs := by
  rcases pySet_foldl_mem xs [] y h with hy | hy
  · simp at hy
  · exact hy

theorem parseEntries_normalized (kvs : List (String × Json))
    (d : List (String × List String)) (h : parseEntries kvs = .ok d)
    (cat : String) (ps : List String) (hm : (cat, ps) ∈ d) :
    ps.Nodup ∧ ∀ p ∈ ps, pyLower p = p := by
  induction kvs generalizing d with
  | nil =>
    rw [parseEntries] at h
    cases h
    simp at hm
  | cons kv rest ih =>
    obtain ⟨k, v⟩ := kv
    rw [parseEntries] at h
    cases hi : pyIter v with
    | none => rw [hi] at h; cases h
    | some xs =>
      rw [hi] at h
      cases ht : parseEntries rest with
      | error e => rw [ht] at h; cases h
      | ok tail =>
        rw [ht] at h
        cases h
        rw [List.mem_cons] at hm
        rcases hm with hm | hm
        · cases hm
          refine ⟨pySet_nodup _, fun p hp => ?_⟩
          have := pySet_subset _ p hp
          rw [List.mem_map] at this
          obtain ⟨x, _, hx⟩ := this
          rw [← hx]
          exact pyLower_idem _
        · exact ih tail ht hm

theorem parseEntries_error_of_bad (kvs : List (String × Json))
    (h : kvs.all (fun kv => (pyIter kv.2).isSome) = false) :
    ∃ e, parseEntries kvs = .error e := by
  induction kvs with
  | nil => simp at h
  | cons kv rest ih =>
    obtain ⟨k, v⟩ := kv
    cases hi : pyIter v with
    | none => exact ⟨_, by rw [parseEntries, hi]⟩
    | some xs =>
      have hr : rest.all (fun kv => (pyIter kv.2).isSome) = false := by
        rw [List.all_cons, hi] at h
        simpa using h
      obtain ⟨e, he⟩ := ih hr
      refine ⟨e, ?_⟩
      rw [parseEntries, hi, he]

theorem matchAt_getElem (p t : List Char) (i j : Nat)
    (h : matchAt p t i = true) (hj : j < p.length) :
    t[i + j]? = p[j]? := by
  have h1 : (t.drop i).take p.length = p := by
    simp only [matchAt, Bool.and_eq_true] at h
    exact eq_of_beq h.1.1
  calc t[i + j]? = (t.drop i)[j]? := (List.getElem?_drop t i j).symm
    _ = ((t.drop i).take p.length)[j]? := (List.getElem?_take_of_lt hj).symm
    _ = p[j]? := by rw [h1]

theorem phraseFound_wordEdges_spec (p t : List Char) (c d : Char)
    (hc : p.head? = some c) (hd : p.getLast? = some d)
    (hwc : isWordChar c = true) (hwd : isWordChar d = true)
    (hf : phraseFound p t = true) : specWholeWordFound p t = true := by
  unfold phraseFound at hf
  rw [List.any_eq_true] at hf
  obtain ⟨i, hi, hm⟩ := hf
  have hlen : 0 < p.length := by
    cases p
    · simp at hc
    · simp
  have hm' := hm
  simp only [matchAt, Bool.and_eq_true] at hm'
  obtain ⟨⟨hocc, hbl⟩, hbr⟩ := hm'
  have hti : t[i]? = some c := by
    have hg := matchAt_getElem p t i 0 hm hlen
    rw [Nat.add_zero] at hg
    rw [hg, ← List.head?_eq_getElem?, hc]
  have hwi : wordAt t i = true := by
    rw [wordAt, List.get?_eq_getElem?, hti]
    exact hwc
  have hleft : i = 0 ∨ wordAt t (i - 1) = false := by
    rw [boundaryAt, hwi] at hbl
    by_cases hz : i = 0
    · exact Or.inl hz
    · right
      cases hw : wordAt t (i - 1)
      · rfl
      · rw [hw, decide_eq_true hz] at hbl
        simp at hbl
  have htl : t[i + (p.length - 1)]? = some d := by
    have hg := matchAt_getElem p t i (p.length - 1) hm (by omega)
    rw [hg, ← List.getLast?_eq_getElem?, hd]
  have hwl : wordAt t (i + p.length - 1) = true := by
    have he : i + p.length - 1 = i + (p.length - 1) := by omega
    rw [he, wordAt, List.get?_eq_getElem?, htl]
    exact hwd
  have hright : wordAt t (i + p.length) = false := by
    rw [boundaryAt] at hbr
    have hk : decide (i + p.length ≠ 0) = true := by
      simp only [decide_eq_true_eq]
      omega
    rw [hk, Bool.true_and, hwl] at hbr
    cases hx : wordAt t (i + p.length)
    · rfl
    · rw [hx] at hbr
      simp at hbr
  unfold specWholeWordFound
  rw [List.any_eq_true]
  refine ⟨i, hi, ?_⟩
  simp only [specMatchAt, Bool.and_eq_true]
  refine ⟨⟨hocc, ?_⟩, by rw [hright]; rfl⟩
  rcases hleft with h0 | hw
  · simp [h0]
  · simp [hw]

/-- C1, counterexample to the general gloss: the phrase consisting of
the single non-word character percent matches in the text `a%b`
(Python word boundaries require a word character NEXT to a non-word
phrase edge), although both of its edge characters are adjacent to
word characters, so the spec's rule "a phrase matches only when its
first and last characters are not adjacent to word characters" is
false as stated. -/
theorem whole_word_gloss_counterexample :
    classify (.str "a%b") [("exclusive_marketing", ["%"])] =
      [("exclusive_marketing", true)] ∧
    specWholeWordFound "%".data "a%b".data = false := by
  exact ⟨by decide, by decide⟩

/-- C1 (amended): the concrete `vip` facts hold, and for every phrase
whose first and last characters are word characters, a match implies a
position where the phrase occurs with no adjacent word character on
either side, exactly the spec's whole-word condition. -/
theorem whole_word_boundary :
    (classify (.str "invite the vipster crew") Dvip =
        [("exclusive_marketing", false)] ∧
      classify (.str "this is a vip event") Dvip =
        [("exclusive_marketing", true)]) ∧
    ∀ (p t : List Char) (c d : Char), p.head? = some c →
      p.getLast? = some d → isWordChar c = true → isWordChar d = true →
      phraseFound p t = true → specWholeWordFound p t = true := by
  refine ⟨⟨by decide, by decide⟩, ?_⟩
  intro p t c d hc hd hwc hwd hf
  exact phraseFound_wordEdges_spec p t c d hc hd hwc hwd hf

/-- Witness for the amended C1 at the phrase `vip` and the text
`this is a vip event`. -/
theorem whole_word_boundary_witness :
    specWholeWordFound "vip".data "this is a vip event".data = true :=
  whole_word_boundary.2 "vip".data "this is a vip event".data 'v' 'p'
    (by decide) (by decide) (by decide) (by decide) (by decide)

/-- C2: the end-to-end scenario — the three records classified under
the two-category dictionary yield exactly the expected flag sets, one
per record, positionally aligned. -/
theorem end_to_end_scenario :
    matchBatch Dmain
        [.str "Limited Time Offer!", .str "Join our VIP club",
         .str "Nothing special here"] =
      [[("urgency_marketing", true), ("exclusive_marketing", false)],
       [("urgency_marketing", false), ("exclusive_marketing", true)],
       [("urgency_marketing", false), ("exclusive_marketing", false)]] := by
  decide

/-- C3: for every dictionary and every record, the flag set returned
by `classify` carries exactly the dictionary's category names as keys,
in order — every category appears even when false, and nothing else. -/
theorem flagset_keys_complete (d : Dictionaries) (r : Record) :
    (classify r d).map Prod.fst = d.map Prod.fst :=
  classify_map_fst d r

/-- C4: the phrase `50% off`, whose percent sign is a regex
metacharacter context in Python, is matched literally (the embedding
of `re.search` with `re.escape` is literal occurrence), and `classify`
returns true for its category on `get 50% off today` without any
failure (the function is total). -/
theorem literal_special_characters :
    classify (.str "get 50% off today") Dpromo = [("promo", true)] := by
  decide

/-- C5: case insensitivity — the two concrete `limited time` texts
both flag true, and in general the result of `classify` depends on the
record only through its lowercased text, so changing letter case never
changes the result. -/
theorem case_insensitive :
    (classify (.str "LIMITED TIME offer") Durgency =
        [("urgency_marketing", true)] ∧
      classify (.str "limited time offer") Durgency =
        [("urgency_marketing", true)]) ∧
    ∀ (d : Dictionaries) (r r' : Record),
      pyLower (recordStr r) = pyLower (recordStr r') →
      classify r d = classify r' d := by
  refine ⟨⟨by decide, by decide⟩, ?_⟩
  intro d r r' h
  unfold classify
  rw [h]

/-- Witness for C5 at a concrete pair of case-variant records. -/
theorem case_insensitive_witness :
    classify (.str "HURRY Up") Dmain = classify (.str "hurry up") Dmain :=
  case_insensitive.2 Dmain (.str "HURRY Up") (.str "hurry up") (by decide)

/-- C6, counterexample to the trimming part: the input phrase
consisting of `VIP` with surrounding spaces is lowercased by
`parse_dictionaries` but its surrounding whitespace is kept — the
output phrase starts with a space, so phrases are not trimmed. -/
theorem validator_trim_counterexample :
    parse_dictionaries (some (.obj [("cat", .arr [.str " VIP "])])) =
      .ok [("cat", [" vip "])] ∧
    " vip ".data.head? = some ' ' := by
  exact ⟨by rfl, by decide⟩

/-- C6 (amended): for every input accepted by the validator, every
phrase set in the output is duplicate-free and every phrase is fully
lowercased (a fixed point of lowercasing); surrounding whitespace,
however, is preserved, not trimmed. -/
theorem validator_normalization (j : Option Json)
    (d : List (String × List String)) (h : parse_dictionaries j = .ok d)
    (cat : String) (ps : List String) (hm : (cat, ps) ∈ d) :
    ps.Nodup ∧ ∀ p ∈ ps, pyLower p = p := by
  cases j with
  | none => simp [parse_dictionaries] at h
  | some v =>
    cases v with
    | str s => simp [parse_dictionaries] at h
    | int n => simp [parse_dictionaries] at h
    | bool b => simp [parse_dictionaries] at h
    | null => simp [parse_dictionaries] at h
    | arr xs => simp [parse_dictionaries] at h
    | obj kvs => exact parseEntries_normalized kvs d h cat ps hm

/-- Witness for the amended C6 at a concrete two-phrase dictionary. -/
theorem validator_normalization_witness :
    ([" vip ", "vip"] : List String).Nodup ∧
      ∀ p ∈ ([" vip ", "vip"] : List String), pyLower p = p :=
  validator_normalization
    (some (.obj [("cat", .arr [.str " VIP ", .str "Vip", .str " VIP "])]))
    [("cat", [" vip ", "vip"])] (by rfl) "cat" [" vip ", "vip"]
    (by simp)

/-- C7: every dictionary input that is not parseable as an object of
string to iterable-of-phrases — text that is not JSON, a top-level
value that is not an object, or an object with a non-iterable category
value — makes `parse_dictionaries` fail, and the run stops with that
error before any matching, producing no flag sets. -/
theorem malformed_dictionary_rejected (j : Option Json)
    (records : List Record) (h : isParseableShape j = false) :
    ∃ e, parse_dictionaries j = .error e ∧
      runApp j records = .error e := by
  have hp : ∃ e, parse_dictionaries j = .error e := by
    cases j with
    | none => exact ⟨_, rfl⟩
    | some v =>
      cases v with
      | str s => exact ⟨_, rfl⟩
      | int n => exact ⟨_, rfl⟩
      | bool b => exact ⟨_, rfl⟩
      | null => exact ⟨_, rfl⟩
      | arr xs => exact ⟨_, rfl⟩
      | obj kvs =>
        have hb : kvs.all (fun kv => (pyIter kv.2).isSome) = false := by
          simpa [isParseableShape] using h
        obtain ⟨e, he⟩ := parseEntries_error_of_bad kvs hb
        exact ⟨e, he⟩
  obtain ⟨e, he⟩ := hp
  refine ⟨e, he, ?_⟩
  rw [runApp, he]

/-- Witness for C7 at a top-level JSON list. -/
theorem malformed_dictionary_rejected_witness :
    ∃ e, parse_dictionaries (some (.arr [.str "vip"])) = .error e ∧
      runApp (some (.arr [.str "vip"])) [.str "hello"] = .error e :=
  malformed_dictionary_rejected (some (.arr [.str "vip"]))
    [.str "hello"] (by decide)

/-- C8: the matcher is total — for every dictionary and every record
(string, numeric or missing) the flag set is well formed, carrying
exactly the dictionary's keys; a category whose phrases all fail to
match the coerced text gets the flag false; and the concrete empty,
missing and numeric records yield all-false flags under the scenario
dictionary. -/
theorem matcher_totality :
    (∀ (d : Dictionaries) (r : Record),
        (classify r d).map Prod.fst = d.map Prod.fst) ∧
    (∀ (d : Dictionaries) (r : Record) (i : Nat) (cat : String)
        (ps : List String), d[i]? = some (cat, ps) →
        (∀ p ∈ ps,
          phraseFound p.data (pyLower (recordStr r)).data = false) →
        (classify r d)[i]? = some (cat, false)) ∧
    classify .nan Dmain =
      [("urgency_marketing", false), ("exclusive_marketing", false)] ∧
    classify (.int 7) Dmain =
      [("urgency_marketing", false), ("exclusive_marketing", false)] ∧
    classify (.str "") Dmain =
      [("urgency_marketing", false), ("exclusive_marketing", false)] := by
  refine ⟨fun d r => classify_map_fst d r, ?_, by decide, by decide,
    by decide⟩
  intro d r i cat ps h hnone
  rw [classify_getElem d r i cat ps h]
  have hfalse : (ps.any fun p =>
      phraseFound p.data (pyLower (recordStr r)).data) = false := by
    rw [List.any_eq_false]
    intro p hp
    rw [Bool.not_eq_true]
    exact hnone p hp
  rw [hfalse]

/-- Witness for C8 at a one-category dictionary and a missing record. -/
theorem matcher_totality_witness :
    (classify .nan [("urgency_marketing", ["hurry"])])[0]? =
      some ("urgency_marketing", false) :=
  matcher_totality.2.1 [("urgency_marketing", ["hurry"])] .nan 0
    "urgency_marketing" ["hurry"] (by decide) (by decide)

/-- C9: determinism — the batch matcher is a pure function, so two
invocations on equal dictionaries and equal record sequences return
equal flag-set sequences. -/
theorem matcher_deterministic (d d' : Dictionaries)
    (rs rs' : List Record) (hd : d = d') (hr : rs = rs') :
    matchBatch d rs = matchBatch d' rs' := by
  rw [hd, hr]

/-- Witness for C9 at the scenario dictionary and a one-record batch. -/
theorem matcher_deterministic_witness :
    matchBatch Dmain [.str "Join our VIP club"] =
      matchBatch Dmain [.str "Join our VIP club"] :=
  matcher_deterministic Dmain Dmain [.str "Join our VIP club"]
    [.str "Join our VIP club"] rfl rfl

/-- C10: a category with an empty phrase set can never be flagged —
the existials over its phrases are vacuously false, so its flag is
false for every record. -/
theorem empty_category_all_false (r : Record) (d : Dictionaries)
    (i : Nat) (cat : String) (h : d[i]? = some (cat, [])) :
    (classify r d)[i]? = some (cat, false) := by
  rw [classify_getElem d r i cat [] h]
  rfl

/-- Witness for C10 at a record that mentions phrases of other
categories. -/
theorem empty_category_all_false_witness :
    (classify (.str "vip hurry exclusive")
        [("never_cat", [])])[0]? = some ("never_cat", false) :=
  empty_category_all_false (.str "vip hurry exclusive")
    [("never_cat", [])] 0 "never_cat" (by decide)

end KeywordClassifier
